import Mathlib

/-!
Shallow embedding of the HTTP request handlers of cbfs (src/http.go).

Each handler is translated into a pure Lean function. The collaborator
services that live outside http.go (the couchbase metadata store, the
hashRecord digest writer, the filesystem) are represented by explicit
inputs describing their outcomes; the handlers map those inputs to a
response descriptor recording the HTTP status and the externally visible
effects (ownership writes, path-metadata writes, blob persistence).
Times are natural numbers counting nanoseconds, matching Go time.Duration.
-/

/-- HTTP headers, modelling Go http.Header (a map from name to values). -/
abbrev Headers := List (String × List String)

/-- File Metadata for a previous revision, modelling the entries of the
previous list in a fileMeta record. -/
structure prevMeta where
  OID : String
  Headers : Headers
  Modified : Nat
  Revno : Int
deriving DecidableEq, Repr

/-- File Metadata record for a user path, modelling the fileMeta struct
read from and written to the metadata store. -/
structure fileMeta where
  Headers : Headers
  OID : String
  Length : Nat
  Modified : Nat
  Revno : Int
  Previous : List prevMeta
deriving DecidableEq, Repr

/-- Ownership Record for a digest, modelling BlobOwnership: the blob
length and the map from node id to last-seen timestamp. -/
structure BlobOwnership where
  Length : Nat
  nodes : List (String × Nat)
deriving DecidableEq, Repr

/-- Result reported by the secondary-store goroutine of altStoreFile
(http.go line 38): the peer node, the hash the peer computed, and the
error, if any. -/
structure storInfo where
  node : String
  hs : String
  err : Option String
deriving DecidableEq, Repr

/-- Whether a path contains two consecutive slashes, modelling
strings.Contains(req.URL.Path, double slash) in putUserFile. -/
def hasDoubleSlash : List Char → Bool
  | '/' :: '/' :: _ => true
  | _ :: rest => hasDoubleSlash rest
  | [] => false

/-- resolvePath from http.go line 307: strip leading slashes; an empty
result or a trailing slash maps to index.html. -/
def resolvePath (path : String) : String :=
  let cs := path.toList.dropWhile (fun c => c = '/')
  if cs ≠ [] ∧ cs.getLast? = some '/' then String.mk cs ++ "index.html"
  else if cs = [] then "index.html"
  else String.mk cs

/-- Digits-only parse of a character list into a natural number; none if
empty or a non-digit appears. -/
def parseDigits (cs : List Char) : Option Nat :=
  if cs = [] then none
  else cs.foldlM (fun acc c => if c.isDigit then some (acc * 10 + (c.toNat - 48)) else none) 0

/-- Go strconv.Atoi: optional sign, decimal digits, 64-bit signed range;
any other input (including empty) is an error, modelled as none. -/
def goAtoi (s : String) : Option Int :=
  match s.toList with
  | '-' :: rest => (parseDigits rest).bind (fun n => if n ≤ 2 ^ 63 then some (-(n : Int)) else none)
  | '+' :: rest => (parseDigits rest).bind (fun n => if n < 2 ^ 63 then some (n : Int) else none)
  | cs => (parseDigits cs).bind (fun n => if n < 2 ^ 63 then some (n : Int) else none)

/-- Modelled from the spec: the Digest Writer's process and finish steps
(hashRecord.Process, outside src/). Streaming the body computes its
digest and length; an I/O failure removes the temp file and errors; if an
expected digest was supplied and the computed digest differs, the temp
file is deleted and a hash-mismatch error is returned; otherwise the blob
is linked in under its digest. -/
def hashProcess (expected bodyDigest : String) (bodyLen : Nat) (ioErr : Bool) :
    Except String (String × Nat) :=
  if ioErr then Except.error "io error"
  else if expected ≠ "" ∧ bodyDigest ≠ expected then Except.error "hash mismatch"
  else Except.ok (bodyDigest, bodyLen)

/-- Nanoseconds in one hour, matching Go time.Hour. -/
def oneHour : Nat := 3600000000000

/-- Modelled from the spec: the most-recent referrer query on an already
fetched Ownership Record (outside src/) returns the node and timestamp
pair with the maximal timestamp. -/
def BlobOwnership.mostRecent (ob : BlobOwnership) : String × Nat :=
  ob.nodes.foldl (fun acc p => if p.2 > acc.2 then p else acc) ("", 0)

/-- Environment of a user-path PUT (putUserFile, http.go line 139): the
request data and the outcomes of the collaborator calls the handler makes,
in the order the handler makes them. bodyDigest and bodyLen are the digest
and length of the request body bytes as the Digest Writer computes them. -/
structure PutUserEnv where
  path : String
  xHash : String
  keepRevsHeader : String
  reqHeaders : Headers
  now : Nat
  newRecErr : Bool
  bodyDigest : String
  bodyLen : Nat
  ioErr : Bool
  recordOwnershipOk : Bool
  storeMetaOk : Bool
  defaultVersionCount : Int
  minReplicas : Int
deriving DecidableEq, Repr

/-- One path-metadata write handed to storeMeta: the resolved path, the
fileMeta record built by the handler, and the revision-keep count. -/
structure metaWrite where
  path : String
  fm : fileMeta
  revs : Int
deriving DecidableEq, Repr

/-- Externally visible outcome of a user-path PUT: HTTP status, the
ownership-ledger writes performed, the path-metadata writes performed,
whether the local blob ended up persisted under its digest, and whether a
background replication task was spawned. -/
structure PutUserResponse where
  status : Nat
  ownershipWrites : List (String × Nat)
  metaWrites : List metaWrite
  blobPersisted : Bool
  replicaTaskSpawned : Bool
deriving DecidableEq, Repr

/-- putUserFile (http.go line 139): reject double slashes; open the
Digest Writer with the client-asserted X-CBFS-Hash; tee to the secondary
store; process the body locally; record blob ownership; await the peer
result and fail on error or hash divergence; compute the keep-revs count;
store path metadata; optionally spawn further replication; return 201.
peerResult is the value received from the altStoreFile channel, none when
the channel closes without a value (no remote nodes). -/
def putUserFile (e : PutUserEnv) (peerResult : Option storInfo) : PutUserResponse :=
  if hasDoubleSlash e.path.toList then ⟨400, [], [], false, false⟩
  else if e.newRecErr then ⟨500, [], [], false, false⟩
  else
    match hashProcess e.xHash e.bodyDigest e.bodyLen e.ioErr with
    | Except.error _ => ⟨500, [], [], false, false⟩
    | Except.ok (h, length) =>
      let fm : fileMeta := ⟨e.reqHeaders, h, length, e.now, 0, []⟩
      if e.recordOwnershipOk = false then ⟨500, [], [], true, false⟩
      else
        let revs : Int :=
          match goAtoi e.keepRevsHeader with
          | some i => i
          | none => e.defaultVersionCount
        let commit : PutUserResponse :=
          if e.storeMetaOk = false then ⟨500, [(h, length)], [], true, false⟩
          else ⟨201, [(h, length)], [⟨resolvePath e.path, fm, revs⟩], true,
                decide (e.minReplicas > 2)⟩
        match peerResult with
        | some si =>
          if si.err ≠ none ∨ si.hs ≠ h then ⟨500, [(h, length)], [], true, false⟩
          else commit
        | none => commit

/-- Externally visible outcome of a raw-blob PUT: HTTP status, whether the
temp file was removed on failure, the ownership-ledger writes performed,
and the X-CBFS-Hash response header, if set. -/
structure RawPutResponse where
  status : Nat
  tempRemoved : Bool
  ownershipWrites : List (String × Nat)
  xHash : Option String
deriving DecidableEq, Repr

/-- putRawHash (http.go line 219): reject an empty oid; open the Digest
Writer with the asserted digest; process the body; record blob ownership
under the asserted digest; set X-CBFS-Hash to the computed digest and
return 201. -/
def putRawHash (inputhash bodyDigest : String) (bodyLen : Nat)
    (newRecErr ioErr recordOk : Bool) : RawPutResponse :=
  if inputhash = "" then ⟨400, false, [], none⟩
  else if newRecErr then ⟨500, false, [], none⟩
  else
    match hashProcess inputhash bodyDigest bodyLen ioErr with
    | Except.error _ => ⟨500, true, [], none⟩
    | Except.ok (sh, length) =>
      if recordOk then ⟨201, false, [(inputhash, length)], some sh⟩
      else ⟨500, false, [], none⟩

/-- putMeta (http.go line 556): 404 when the path has no File Metadata,
400 on a JSON decode failure, 201 when the CAS write succeeds, 500
otherwise. Returns the HTTP status. -/
def putMetaStatus (metaLookup : Option fileMeta) (decodeOk casOk : Bool) : Nat :=
  match metaLookup with
  | none => 404
  | some _ => if decodeOk = false then 400 else if casOk then 201 else 500

/-- putConfig (http.go line 258): 500 on a JSON decode failure, 500 on a
store failure, 204 otherwise (an updateConfig failure is only logged).
Returns the HTTP status. -/
def putConfigStatus (decodeOk storeOk : Bool) : Nat :=
  if decodeOk = false then 500 else if storeOk = false then 500 else 204

/-- doHead (http.go line 323): 404 when the path has no File Metadata,
then 400 when a rev parameter is present, else 200. Returns the HTTP
status. -/
def doHead (metaLookup : Option fileMeta) (revParam : String) : Nat :=
  match metaLookup with
  | none => 404
  | some _ => if revParam ≠ "" then 400 else 200

/-- Result of a user-path GET (doGetUserDoc): response class plus the
data served. serveLocal is the local blob serve; serveRemote is the
fallback to getBlobFromRemote when the local open fails. -/
inductive GetResult where
  | notFound
  | badRev
  | gone
  | notModified
  | serveLocal (oid : String) (headers : Headers) (modified : Nat)
  | serveRemote (oid : String) (headers : Headers)
deriving DecidableEq, Repr

/-- Tail of doGetUserDoc from http.go line 410: the If-None-Match check
against the record's current OID (the header value is stripped of its
first and last byte when longer than two bytes), then the local open with
remote fallback. gotOID is the current OID of the record; oid, hdrs and
modified are the revision actually selected for serving. localHas tells
whether os.Open succeeds for a given oid. -/
def serveStage (gotOID oid : String) (hdrs : Headers) (modified : Nat)
    (inm : String) (localHas : String → Bool) : GetResult :=
  if inm.toList.length > 2 ∧ gotOID = String.mk ((inm.toList.drop 1).dropLast) then
    GetResult.notModified
  else if localHas oid then GetResult.serveLocal oid hdrs modified
  else GetResult.serveRemote oid hdrs

/-- doGetUserDoc (http.go line 360): 404 when the path has no File
Metadata; a non-empty rev parameter must parse as an integer (else 400)
and selects the first entry of previous with that revno, falling back to
410 when none matches (or the matching entry has an empty oid); then the
If-None-Match check and the serve. -/
def doGetUserDoc (metaLookup : Option fileMeta) (revParam inm : String)
    (localHas : String → Bool) : GetResult :=
  match metaLookup with
  | none => GetResult.notFound
  | some got =>
    if revParam ≠ "" then
      match goAtoi revParam with
      | none => GetResult.badRev
      | some i =>
        match got.Previous.find? (fun rev => rev.Revno == i) with
        | some rev =>
          if rev.OID = "" then GetResult.gone
          else serveStage got.OID rev.OID rev.Headers rev.Modified inm localHas
        | none => GetResult.gone
    else serveStage got.OID got.OID got.Headers got.Modified inm localHas

/-- The cache-admission condition of getBlobFromRemote (http.go line
501): cachePerc == 100 or (cachePerc exceeds the uniform draw from
rand.Intn(100) and the available space strictly exceeds the ownership
length). -/
def cacheAdmission (cachePerc randDraw availSpace blobLen : Nat) : Bool :=
  (cachePerc == 100) || (decide (cachePerc > randDraw) && decide (availSpace > blobLen))

/-- The cache-admission condition as the claim words it: admission when
cache_admission_percent equals 100, or the draw is strictly below it and
the available space is at least the blob length. -/
def claimCacheAdmission (cachePerc randDraw availSpace blobLen : Nat) : Bool :=
  (cachePerc == 100) || (decide (randDraw < cachePerc) && decide (availSpace ≥ blobLen))

/-- Outcome of a fetch request: HTTP status and whether a background
blob fetch was enqueued. -/
structure FetchResponse where
  status : Nat
  enqueued : Bool
deriving DecidableEq, Repr

/-- doFetchDoc (http.go line 719): 404 when no Ownership Record exists;
500 without enqueueing when the available space is below the ownership
length; otherwise enqueue the background fetch and return 202. -/
def doFetchDoc (ownershipLookup : Option BlobOwnership) (availSpace : Nat) : FetchResponse :=
  match ownershipLookup with
  | none => ⟨404, false⟩
  | some ob => if availSpace < ob.Length then ⟨500, false⟩ else ⟨202, true⟩

/-- Outcome of a raw-blob DELETE: HTTP status and whether the local blob
file was removed. -/
structure DeleteResponse where
  status : Nat
  blobRemoved : Bool
deriving DecidableEq, Repr

/-- doDeleteOID (http.go line 842): when an Ownership Record exists and
its most-recent timestamp is within the last hour, refuse with 400 and do
not remove; otherwise removeObject, 204 on success and 404 on failure.
removeOk is the outcome of removeObject. -/
def doDeleteOID (ownershipLookup : Option BlobOwnership) (now : Nat)
    (removeOk : Bool) : DeleteResponse :=
  match ownershipLookup with
  | some ob =>
    if now - (BlobOwnership.mostRecent ob).2 < oneHour then ⟨400, false⟩
    else if removeOk then ⟨204, true⟩ else ⟨404, false⟩
  | none => if removeOk then ⟨204, true⟩ else ⟨404, false⟩

/-- C1: in a user-path PUT in which the replication peer task reports a
result carrying an error or a peer-computed hash different from the
locally computed digest, the request fails with status 500, no path
metadata is written, and the local blob remains persisted. -/
theorem putUserFile_secondary_failure (e : PutUserEnv) (si : storInfo)
    (hslash : hasDoubleSlash e.path.toList = false)
    (hnew : e.newRecErr = false)
    (hio : e.ioErr = false)
    (hx : e.xHash = "" ∨ e.bodyDigest = e.xHash)
    (hown : e.recordOwnershipOk = true)
    (hbad : si.err ≠ none ∨ si.hs ≠ e.bodyDigest) :
    putUserFile e (some si) = ⟨500, [(e.bodyDigest, e.bodyLen)], [], true, false⟩ := by
  have hproc : hashProcess e.xHash e.bodyDigest e.bodyLen e.ioErr
      = Except.ok (e.bodyDigest, e.bodyLen) := by
    rcases hx with hx | hx <;> simp [hashProcess, hio, hx]
  have hslash' : hasDoubleSlash e.path.data = false := hslash
  simp [putUserFile, hslash', hnew, hproc, hown, hbad]

theorem putUserFile_secondary_failure_witness :
    putUserFile ⟨"foo", "", "", [], 0, false, "d1", 5, false, true, true, 3, 1⟩
      (some ⟨"n", "d2", none⟩) = ⟨500, [("d1", 5)], [], true, false⟩ :=
  putUserFile_secondary_failure
    ⟨"foo", "", "", [], 0, false, "d1", 5, false, true, true, 3, 1⟩ ⟨"n", "d2", none⟩
    (by decide) (by decide) (by decide) (Or.inl (by decide)) (by decide)
    (Or.inr (by decide))

/-- C9: once the local steps of a user-path PUT succeed, the ownership
write for the locally computed digest is performed whatever the peer
result is; in particular, when the request fails with 500 because the
peer reported an error or a divergent hash, the ownership entry has
already been written and is not rolled back. -/
theorem putUserFile_ownership_precedes_peer (e : PutUserEnv)
    (hslash : hasDoubleSlash e.path.toList = false)
    (hnew : e.newRecErr = false)
    (hio : e.ioErr = false)
    (hx : e.xHash = "" ∨ e.bodyDigest = e.xHash)
    (hown : e.recordOwnershipOk = true) :
    (∀ pr : Option storInfo,
        (putUserFile e pr).ownershipWrites = [(e.bodyDigest, e.bodyLen)]) ∧
    (∀ si : storInfo, (si.err ≠ none ∨ si.hs ≠ e.bodyDigest) →
        (putUserFile e (some si)).status = 500 ∧
        (putUserFile e (some si)).ownershipWrites = [(e.bodyDigest, e.bodyLen)]) := by
  have hproc : hashProcess e.xHash e.bodyDigest e.bodyLen e.ioErr
      = Except.ok (e.bodyDigest, e.bodyLen) := by
    rcases hx with hx | hx <;> simp [hashProcess, hio, hx]
  have hslash' : hasDoubleSlash e.path.data = false := hslash
  constructor
  · intro pr
    cases pr with
    | none =>
      by_cases hsm : e.storeMetaOk <;> simp [putUserFile, hslash', hnew, hproc, hown, hsm]
    | some si =>
      by_cases hpe : si.err ≠ none ∨ si.hs ≠ e.bodyDigest <;>
        by_cases hsm : e.storeMetaOk <;>
          simp [putUserFile, hslash', hnew, hproc, hown, hsm, hpe]
  · intro si hpe
    constructor <;> simp [putUserFile, hslash', hnew, hproc, hown, hpe]

theorem putUserFile_ownership_precedes_peer_witness :
    (putUserFile ⟨"bar", "", "", [], 0, false, "d3", 7, false, true, true, 3, 1⟩
      (some ⟨"n", "dX", none⟩)).ownershipWrites = [("d3", 7)] :=
  (putUserFile_ownership_precedes_peer
    ⟨"bar", "", "", [], 0, false, "d3", 7, false, true, true, 3, 1⟩
    (by decide) (by decide) (by decide) (Or.inl (by decide)) (by decide)).1
    (some ⟨"n", "dX", none⟩)

/-- C2: a PUT of a raw blob whose body does not hash to the asserted
digest responds 500, removes the temp file, and writes no Ownership
Record, whatever the I/O and ledger outcomes would have been. -/
theorem putRawHash_digest_mismatch (inputhash bodyDigest : String) (bodyLen : Nat)
    (ioErr recordOk : Bool)
    (hne : inputhash ≠ "")
    (hmm : bodyDigest ≠ inputhash) :
    putRawHash inputhash bodyDigest bodyLen false ioErr recordOk
      = ⟨500, true, [], none⟩ := by
  cases ioErr <;> simp [putRawHash, hashProcess, hne, hmm]

theorem putRawHash_digest_mismatch_witness :
    putRawHash "aa" "bb" 4 false false true = ⟨500, true, [], none⟩ :=
  putRawHash_digest_mismatch "aa" "bb" 4 false true (by decide) (by decide)

/-- C3 counterexample: with cache_admission_percent 50, draw 10, and
available space exactly equal to the blob length (100), the code does not
admit, while the claim's condition (space at least the length) says it
must. -/
theorem cacheAdmission_counterexample :
    cacheAdmission 50 10 100 100 = false ∧ claimCacheAdmission 50 10 100 100 = true := by
  decide

/-- C3 (amended): the local Digest Writer is opened on a remote read iff
cache_admission_percent equals 100, or the uniform draw is strictly below
cache_admission_percent and the available space strictly exceeds the
blob length from the Ownership Record. -/
theorem cacheAdmission_characterisation (cachePerc randDraw availSpace blobLen : Nat) :
    cacheAdmission cachePerc randDraw availSpace blobLen = true ↔
      (cachePerc = 100 ∨ (randDraw < cachePerc ∧ blobLen < availSpace)) := by
  simp [cacheAdmission]

/-- C4 counterexample: a fetch request whose Ownership Record exists but
whose length (10) exceeds the available space (5) is answered 500 without
enqueueing, not 202: the free-space check happens in the handler. -/
theorem doFetchDoc_counterexample :
    doFetchDoc (some ⟨10, [("n", 0)]⟩) 5 = ⟨500, false⟩ ∧
      doFetchDoc (some ⟨10, [("n", 0)]⟩) 5 ≠ ⟨202, true⟩ := by
  decide

/-- C4 (amended): when an Ownership Record exists, the handler itself
performs the free-space check synchronously: it responds 500 without
enqueueing when available space is below the record's length, and
enqueues and responds 202 otherwise. -/
theorem doFetchDoc_space_check (ob : BlobOwnership) (availSpace : Nat) :
    doFetchDoc (some ob) availSpace
      = if availSpace < ob.Length then ⟨500, false⟩ else ⟨202, true⟩ := rfl

/-- C5 counterexample: a successful PUT to the meta endpoint returns 201,
not 204. -/
theorem putMetaStatus_counterexample :
    putMetaStatus (some ⟨[], "aa", 0, 0, 1, []⟩) true true = 201 ∧ (201 : Nat) ≠ 204 := by
  decide

/-- C5 (amended): every successful PUT to the meta endpoint returns 201
created, and every successful PUT to the config endpoint returns 204
no-content. -/
theorem putMeta_putConfig_success_status :
    (∀ m : fileMeta, putMetaStatus (some m) true true = 201) ∧
      putConfigStatus true true = 204 := by
  exact ⟨fun m => rfl, rfl⟩

/-- C8: a DELETE of a raw blob whose Ownership Record has a most-recent
timestamp less than one hour old responds 400 and does not remove the
local blob file. -/
theorem doDeleteOID_recent_reference (ob : BlobOwnership) (now : Nat) (removeOk : Bool)
    (h : now - (BlobOwnership.mostRecent ob).2 < oneHour) :
    doDeleteOID (some ob) now removeOk = ⟨400, false⟩ := by
  simp [doDeleteOID, h]

theorem doDeleteOID_recent_reference_witness :
    doDeleteOID (some ⟨5, [("a", 3)]⟩) 3 true = ⟨400, false⟩ :=
  doDeleteOID_recent_reference ⟨5, [("a", 3)]⟩ 3 true (by decide)

/-- C10: a HEAD request with a non-empty rev parameter on a path without
File Metadata is answered 404, because the metadata lookup precedes the
rev rejection; 400 is produced only when the metadata exists. -/
theorem doHead_missing_meta (revParam : String) (h : revParam ≠ "") :
    doHead none revParam = 404 ∧
      ∀ m : Option fileMeta, doHead m revParam = 400 → m.isSome = true := by
  refine ⟨rfl, ?_⟩
  intro m hm
  cases m with
  | none => exact absurd hm (by simp [doHead])
  | some got => rfl

theorem doHead_missing_meta_witness : doHead none "1" = 404 :=
  (doHead_missing_meta "1" (by decide)).1

theorem goAtoi_empty : goAtoi "" = none := rfl

theorem serveStage_empty_inm (gotOID oid : String) (hdrs : Headers) (modified : Nat)
    (localHas : String → Bool) :
    serveStage gotOID oid hdrs modified "" localHas
      = if localHas oid then GetResult.serveLocal oid hdrs modified
        else GetResult.serveRemote oid hdrs := by
  simp [serveStage]

theorem serveStage_quoted_etag (gotOID oid : String) (hdrs : Headers) (modified : Nat)
    (localHas : String → Bool) (h : gotOID ≠ "") :
    serveStage gotOID oid hdrs modified ("\"" ++ gotOID ++ "\"") localHas
      = GetResult.notModified := by
  have hdata : ("\"" ++ gotOID ++ "\"").toList = '"' :: gotOID.data ++ ['"'] := by
    simp [String.toList, String.data_append]
  have hne : gotOID.data ≠ [] := fun hh => h (String.ext hh)
  have hpos : 0 < gotOID.data.length := List.length_pos.mpr hne
  have hcond : ("\"" ++ gotOID ++ "\"").toList.length > 2 ∧
      gotOID = String.mk ((("\"" ++ gotOID ++ "\"").toList.drop 1).dropLast) := by
    constructor
    · rw [hdata]
      simp only [List.length_cons, List.length_append, List.length_singleton]
      omega
    · rw [hdata]
      simp
  unfold serveStage
  rw [if_pos hcond]

/-- C6 counterexample: a GET with rev 1 on a record whose previous list
holds revno 1 with oid bb, but carrying an If-None-Match header equal to
the quoted current oid, is answered 304, not served from the revision
entry. -/
theorem doGetUserDoc_rev_counterexample :
    doGetUserDoc (some ⟨[], "aa", 0, 0, 2, [⟨"bb", [], 7, 1⟩]⟩) "1" "\"aa\"" (fun _ => true)
        = GetResult.notModified ∧
      GetResult.notModified ≠ GetResult.serveLocal "bb" [] 7 := by
  decide

/-- C6 (amended): on a GET with an integer rev parameter, in the absence
of an If-None-Match header and with nonempty oids in previous, the first
entry of previous with a matching revno is served (locally when the blob
opens, otherwise from a remote owner), and when no entry matches the
response is 410 Gone. -/
theorem doGetUserDoc_rev (got : fileMeta) (revParam : String) (r : Int)
    (localHas : String → Bool)
    (hr : goAtoi revParam = some r)
    (hOids : ∀ p ∈ got.Previous, p.OID ≠ "") :
    (∀ e : prevMeta, got.Previous.find? (fun p => p.Revno == r) = some e →
        doGetUserDoc (some got) revParam "" localHas
          = if localHas e.OID then GetResult.serveLocal e.OID e.Headers e.Modified
            else GetResult.serveRemote e.OID e.Headers) ∧
    (got.Previous.find? (fun p => p.Revno == r) = none →
        doGetUserDoc (some got) revParam "" localHas = GetResult.gone) := by
  have hne : revParam ≠ "" := by
    intro hh
    rw [hh, goAtoi_empty] at hr
    exact Option.noConfusion hr
  constructor
  · intro e he
    have hoid : e.OID ≠ "" := hOids e (List.mem_of_find?_eq_some he)
    simp [doGetUserDoc, hne, hr, he, hoid, serveStage_empty_inm]
  · intro hn
    simp [doGetUserDoc, hne, hr, hn]

theorem doGetUserDoc_rev_witness :
    doGetUserDoc (some ⟨[], "aa", 0, 0, 2, [⟨"bb", [], 7, 1⟩]⟩) "1" "" (fun _ => true)
      = GetResult.serveLocal "bb" [] 7 := by
  have h := (doGetUserDoc_rev ⟨[], "aa", 0, 0, 2, [⟨"bb", [], 7, 1⟩]⟩ "1" 1 (fun _ => true)
      (by decide) (by decide)).1 ⟨"bb", [], 7, 1⟩ (by decide)
  simpa using h

/-- C7 counterexample: a GET carrying an If-None-Match header whose
quoted value equals the current oid but also a rev parameter naming a
purged revision is answered 410 Gone, not 304. -/
theorem doGetUserDoc_inm_counterexample :
    doGetUserDoc (some ⟨[], "cc", 0, 0, 2, [⟨"dd", [], 7, 1⟩]⟩) "5" "\"cc\"" (fun _ => true)
        = GetResult.gone ∧ GetResult.gone ≠ GetResult.notModified := by
  decide

/-- C7 (amended): a GET of an existing user path with a nonempty current
oid, carrying an If-None-Match header whose quoted value equals that oid,
is answered 304 provided the rev parameter is absent or names a retained
previous revision with a nonempty oid. -/
theorem doGetUserDoc_if_none_match (got : fileMeta) (revParam : String)
    (localHas : String → Bool)
    (hoid : got.OID ≠ "")
    (hrev : revParam = "" ∨ ∃ r e, goAtoi revParam = some r ∧
        got.Previous.find? (fun p => p.Revno == r) = some e ∧ e.OID ≠ "") :
    doGetUserDoc (some got) revParam ("\"" ++ got.OID ++ "\"") localHas
      = GetResult.notModified := by
  rcases hrev with hrev | ⟨r, e, hr, he, heo⟩
  · subst hrev
    simp [doGetUserDoc,
      serveStage_quoted_etag got.OID got.OID got.Headers got.Modified localHas hoid]
  · have hne : revParam ≠ "" := by
      intro hh
      rw [hh, goAtoi_empty] at hr
      exact Option.noConfusion hr
    simp [doGetUserDoc, hne, hr, he, heo,
      serveStage_quoted_etag got.OID e.OID e.Headers e.Modified localHas hoid]

theorem doGetUserDoc_if_none_match_witness :
    doGetUserDoc (some ⟨[], "ee", 0, 0, 1, []⟩) "" ("\"" ++ "ee" ++ "\"") (fun _ => true)
      = GetResult.notModified :=
  doGetUserDoc_if_none_match ⟨[], "ee", 0, 0, 1, []⟩ "" (fun _ => true)
    (by decide) (Or.inl rfl)
